import Mathlib

/-!
Verification development for the `muse-weaver-ai-bridge` Obsidian plugin
(TypeScript sources `src/ai-client.ts`, `src/types.ts`, `src/main.ts`).

The TypeScript code is shallowly embedded: JSON values parsed from provider
responses become the inductive `Json`; JavaScript truthiness, optional
chaining, template-literal stringification and the concrete regular
expressions used by `redactError` are compiled to executable Lean functions
on `List Char`/`String`; the stateful settings object becomes a plain
structure transformed functionally; the network is an explicit oracle
`FetchCall → FetchOutcome`, and every issued fetch is recorded in a trace so
that "no network call happens" is expressible.
-/

namespace Mwab

/-- The set matched by the JavaScript regex character class `\s`
(whitespace, used by `[^&\s]`, `\s*`, `\s+`, `\S` in `redactError`). -/
def jsWS (c : Char) : Bool :=
  c = ' ' ∨ c = '\t' ∨ c = '\n' ∨ c = '\r' ∨ c.val = 0x0b ∨ c.val = 0x0c ∨
  c.val = 0xa0 ∨ c.val = 0x1680 ∨ (0x2000 ≤ c.val ∧ c.val ≤ 0x200a) ∨
  c.val = 0x2028 ∨ c.val = 0x2029 ∨ c.val = 0x202f ∨ c.val = 0x205f ∨
  c.val = 0x3000 ∨ c.val = 0xfeff

/-- A JSON value, as produced by `await res.json()`.  JSON numbers are
modelled as integers: no claim in scope distinguishes fractional values
(only zero/non-zero truthiness and string equality matter). -/
inductive Json where
  | null
  | bool (b : Bool)
  | num (n : Int)
  | str (s : String)
  | arr (xs : List Json)
  | obj (fields : List (String × Json))

/-- JavaScript truthiness of a JSON value (`null`, `false`, `0`, `""` are
falsy; objects and arrays are always truthy). -/
def jsTruthy : Json → Bool
  | .null => false
  | .bool b => b
  | .num n => n ≠ 0
  | .str s => s ≠ ""
  | .arr _ => true
  | .obj _ => true

/-- Truthiness of a possibly-`undefined` JavaScript value
(`none` models `undefined`). -/
def jsTruthyO : Option Json → Bool
  | none => false
  | some j => jsTruthy j

/-- Property read `v[k]` for the property names used by the adapters.
On a plain object it is association-list lookup; on every other JSON value
(and in particular on `null`) it yields `undefined` — all call sites guard
with `?.`, so the throwing non-optional read on `null` never occurs.
Parsed JSON objects have unique keys, so first-match lookup is exact. -/
def jsGet : Json → String → Option Json
  | .obj fs, k => (fs.find? (fun f => f.1 = k)).map (·.2)
  | _, _ => none

/-- Optional-chained property read `v?.[k]` on a possibly-`undefined`
value. -/
def jsGetO (o : Option Json) (k : String) : Option Json :=
  o.bind (fun j => jsGet j k)

/-- Indexed read `v[i]`: array element, numeric-keyed object property, or
single-character string (JavaScript string indexing yields a one-character
string). -/
def jsIndex : Json → Nat → Option Json
  | .arr xs, i => xs.get? i
  | .obj fs, i => (fs.find? (fun f => f.1 = toString i)).map (·.2)
  | .str s, i => (s.data.get? i).map (fun c => Json.str (String.mk [c]))
  | _, _ => none

/-- Optional-chained indexed read `v?.[i]`. -/
def jsIndexO (o : Option Json) (i : Nat) : Option Json :=
  o.bind (fun j => jsIndex j i)

/-- Strict equality test `v === "s"` between a possibly-`undefined` value
and a string literal. -/
def jsIsStr (o : Option Json) (s : String) : Bool :=
  match o with
  | some (.str t) => t = s
  | _ => false

/-- Whether a JSON value is `null` (array elements that are `null` render
empty in `Array.prototype.join`). -/
def Json.isNullV : Json → Bool
  | .null => true
  | _ => false

/-- Template-literal stringification `String(v)` of a JSON value
(arrays join their elements with `","`, where a `null` element renders
empty; objects render as `[object Object]`). -/
def jsToString : Json → String
  | .null => "null"
  | .bool b => cond b "true" "false"
  | .num n => toString n
  | .str s => s
  | .obj _ => "[object Object]"
  | .arr xs => String.intercalate "," (xs.attach.map (fun x =>
      if x.1.isNullV then "" else jsToString x.1))
decreasing_by
  simp only [Json.arr.sizeOf_spec]
  have := List.sizeOf_lt_of_mem x.2
  omega

/-- Stringification of a possibly-`undefined` value, as in a template
literal. -/
def jsToStringO : Option Json → String
  | none => "undefined"
  | some j => jsToString j

/-!
Generic engine for `String.prototype.replace` with a `/g`-flagged regex:
scan left to right; at each position try the pattern; on a match emit the
replacement and resume after the matched region (non-overlapping matches);
on failure emit one character and retry at the next position.  Each
concrete regex of `redactError` is compiled to a matcher
`f : List Char → Option (List Char × List Char)` returning the replacement
text and the remainder after the matched region.  The recursion is fuelled
by the input length so that every definition stays structurally recursive
(hence kernel-computable); `scanFuel_congr` shows the fuel is irrelevant
for matchers that consume at least one character.
-/

/-- One global-replace pass driven by matcher `f`, with explicit fuel. -/
def scanFuel (f : List Char → Option (List Char × List Char)) :
    Nat → List Char → List Char
  | _, [] => []
  | 0, l => l
  | Nat.succ n, c :: cs =>
    match f (c :: cs) with
    | some (m, r) => m ++ scanFuel f n r
    | none => c :: scanFuel f n cs

/-- Global replace driven by matcher `f` (fuel instantiated to the input
length). -/
def scanAll (f : List Char → Option (List Char × List Char))
    (l : List Char) : List Char :=
  scanFuel f l.length l

/-- A matcher consumes at least one character whenever it succeeds. -/
def Shrinks (f : List Char → Option (List Char × List Char)) : Prop :=
  ∀ l m r, f l = some (m, r) → r.length < l.length

theorem scanFuel_nil {f : List Char → Option (List Char × List Char)}
    (n : Nat) : scanFuel f n [] = [] := by
  cases n <;> rfl

theorem scanFuel_fuel_irrel {f : List Char → Option (List Char × List Char)}
    (hf : Shrinks f) :
    ∀ n k l, l.length ≤ n → l.length ≤ k → scanFuel f n l = scanFuel f k l := by
  intro n
  induction n with
  | zero =>
    intro k l hl _
    have : l = [] := List.length_eq_zero.mp (Nat.le_zero.mp hl)
    subst this
    rw [scanFuel_nil, scanFuel_nil]
  | succ n ih =>
    intro k l hln hlk
    match l with
    | [] => rw [scanFuel_nil, scanFuel_nil]
    | c :: cs =>
      simp only [List.length_cons] at hln hlk
      match k with
      | 0 => omega
      | Nat.succ k =>
        match hm : f (c :: cs) with
        | some (m, r) =>
          have hr : r.length < cs.length + 1 := hf _ _ _ hm
          simp only [scanFuel, hm]
          rw [ih k r (by omega) (by omega)]
        | none =>
          simp only [scanFuel, hm]
          rw [ih k cs (by omega) (by omega)]

theorem scanFuel_congr {f : List Char → Option (List Char × List Char)}
    (hf : Shrinks f) (n : Nat) (l : List Char) (h : l.length ≤ n) :
    scanFuel f n l = scanAll f l :=
  scanFuel_fuel_irrel hf n l.length l h (Nat.le_refl _)

theorem scanAll_nil {f : List Char → Option (List Char × List Char)} :
    scanAll f [] = [] := rfl

theorem scanAll_cons_none {f : List Char → Option (List Char × List Char)}
    {c : Char} {cs : List Char} (h : f (c :: cs) = none) :
    scanAll f (c :: cs) = c :: scanAll f cs := by
  rw [scanAll, List.length_cons, scanFuel, h]
  rfl

theorem scanAll_cons_some {f : List Char → Option (List Char × List Char)}
    (hf : Shrinks f) {c : Char} {cs : List Char} {m r : List Char}
    (h : f (c :: cs) = some (m, r)) :
    scanAll f (c :: cs) = m ++ scanAll f r := by
  have hr : r.length < cs.length + 1 := hf _ _ _ h
  rw [scanAll, List.length_cons]
  simp only [scanFuel, h]
  rw [scanFuel_congr hf cs.length r (by omega)]

/-!
`redactError` (src/ai-client.ts lines 22-53).  Each of its five
`String.replace` calls is compiled to a matcher for `scanAll`.
-/

/-- Case-insensitive match of a literal pattern (the `i` flag with an
ASCII pattern: a candidate character matches iff it lowercases to the
pattern character; non-ASCII characters never canonicalize to ASCII).
Returns the matched characters in their original case (for `$1`) and the
remainder. -/
def matchCI : List Char → List Char → Option (List Char × List Char)
  | [], l => some ([], l)
  | _ :: _, [] => none
  | p :: ps, c :: cs =>
    if c.toLower = p.toLower then
      (matchCI ps cs).map (fun pr => (c :: pr.1, pr.2))
    else none

/-- The alternatives of the capture group
`(key|api_key|apikey|token|access_token)`, in the regex's order.  No
alternative is a prefix of another, so committing to the first alternative
that matches is equivalent to the engine's backtracking. -/
def qpNames : List (List Char) :=
  ["key".data, "api_key".data, "apikey".data, "token".data,
   "access_token".data]

/-- Try a list of literal alternatives case-insensitively, first match
wins. -/
def tryNames : List (List Char) → List Char → Option (List Char × List Char)
  | [], _ => none
  | n :: ns, l =>
    match matchCI n l with
    | some pr => some pr
    | none => tryNames ns l

/-- A character admitted by the value class `[^&\s]`. -/
def qpValChar (c : Char) : Bool := ¬(c = '&' ∨ jsWS c)

/-- Matcher for `/[?&](key|api_key|apikey|token|access_token)=[^&\s]*/gi`
with replacement `"?$1=[REDACTED]"` (src/ai-client.ts line 31): a `?` or
`&`, a parameter name (captured, case preserved), `=`, then a greedy run
of value characters; the replacement always begins with `?`. -/
def tryQP : List Char → Option (List Char × List Char)
  | [] => none
  | c :: cs =>
    if c = '?' ∨ c = '&' then
      match tryNames qpNames cs with
      | some (name, rest1) =>
        match rest1 with
        | '=' :: rest2 =>
          some ('?' :: (name ++ '=' :: "[REDACTED]".data),
                rest2.dropWhile qpValChar)
        | _ => none
      | none => none
    else none

/-- A non-whitespace character (`\S`). -/
def notWS (c : Char) : Bool := ¬ jsWS c

/-- Case-insensitive equality of a run with an ASCII literal. -/
def lowerEq (l p : List Char) : Bool := l.map Char.toLower = p

/-- The tail `\s*(Bearer\s+)?\S+` of the Authorization regex, applied
after the literal header name: skip whitespace; if the first
non-whitespace run is exactly `Bearer` (case-insensitively) and is
followed by whitespace and a further non-whitespace run, the match spans
both runs (the backtracking semantics of the optional group); otherwise it
spans just the first run, which must be non-empty.  Returns the remainder
after the matched region. -/
def hdrValueTail (rest : List Char) : Option (List Char) :=
  let r1 := rest.dropWhile jsWS
  let run1 := r1.takeWhile notWS
  if run1.isEmpty then none
  else
    let after1 := r1.dropWhile notWS
    let r2 := after1.dropWhile jsWS
    let run2 := r2.takeWhile notWS
    if lowerEq run1 "bearer".data ∧ ¬ after1.isEmpty ∧ ¬ run2.isEmpty then
      some (r2.dropWhile notWS)
    else some after1

/-- Matcher for `/Authorization:\s*(Bearer\s+)?\S+/gi` with replacement
`"Authorization: [REDACTED]"` (src/ai-client.ts line 34). -/
def tryAuth (l : List Char) : Option (List Char × List Char) :=
  match matchCI "authorization:".data l with
  | some (_, rest) =>
    (hdrValueTail rest).map (fun r => ("Authorization: [REDACTED]".data, r))
  | none => none

/-- Matcher for a header regex of the shape `/name:\s*\S+/gi` with a fixed
replacement — used for `x-goog-api-key` (line 37) and `x-api-key`
(line 40).  The simpler tail `\s*\S+` is `hdrValueTail` without the
`Bearer` group. -/
def tryHdr (name : List Char) (repl : List Char) (l : List Char) :
    Option (List Char × List Char) :=
  match matchCI name l with
  | some (_, rest) =>
    let r1 := rest.dropWhile jsWS
    let run1 := r1.takeWhile notWS
    if run1.isEmpty then none
    else some (repl, r1.dropWhile notWS)
  | none => none

/-- The origin and pathname extracted by the platform's `new URL`. -/
structure UrlParts where
  origin : String
  pathname : String

/-- Models the platform's WHATWG `new URL` constructor for the absolute
http(s) URLs that occur in error text: scheme, authority (userinfo
dropped, host lowercased, default port elided, empty host or non-numeric
port rejected), pathname up to `?`/`#` (defaulting to `/`).  Finer WHATWG
normalization (percent-encoding, dot segments, IPv6 hosts) is not
reproduced; no theorem below depends on this function's output. -/
def urlParse (s : String) : Option UrlParts :=
  let l := s.data
  let afterScheme :=
    if "https://".data.isPrefixOf l then some ("https", l.drop 8)
    else if "http://".data.isPrefixOf l then some ("http", l.drop 7)
    else none
  match afterScheme with
  | none => none
  | some (scheme, rest) =>
    let authority := rest.takeWhile (fun c => ¬(c = '/' ∨ c = '?' ∨ c = '#'))
    let tail := rest.drop authority.length
    let hostPort := (authority.reverse.takeWhile (· ≠ '@')).reverse
    let host := hostPort.takeWhile (· ≠ ':')
    let port := (hostPort.drop host.length).drop 1
    if host.isEmpty then none
    else if ¬ port.all Char.isDigit then none
    else
      let hostL := host.map Char.toLower
      let defaultPort := if scheme = "https" then "443".data else "80".data
      let originPort :=
        if port.isEmpty ∨ port = defaultPort then [] else ':' :: port
      let path := tail.takeWhile (fun c => ¬(c = '?' ∨ c = '#'))
      let pathname := if path.isEmpty then "/".data else path
      some { origin := String.mk (scheme.data ++ "://".data ++ hostL ++ originPort),
             pathname := String.mk pathname }

/-- The replacer of src/ai-client.ts lines 43-50: rebuild the URL as
`origin + pathname + "?[QUERY_REDACTED]"`, or on a parse failure replace
everything from the first `?` on. -/
def urlReplace (matched : List Char) : List Char :=
  match urlParse (String.mk matched) with
  | some u => u.origin.data ++ u.pathname.data ++ "?[QUERY_REDACTED]".data
  | none => matched.takeWhile (· ≠ '?') ++ "?[QUERY_REDACTED]".data

/-- Matcher for `/https?:\/\/[^\s]*\?[^\s]*/g` (case-sensitive, line 43):
a literal scheme marker followed by a non-whitespace run containing a `?`;
greediness makes the match span the whole run.  The replacement is
computed from the matched text by `urlReplace`. -/
def tryUrl (l : List Char) : Option (List Char × List Char) :=
  let go (schemeLen : Nat) : Option (List Char × List Char) :=
    let pre := l.take schemeLen
    let r := l.drop schemeLen
    let run := r.takeWhile notWS
    if run.contains '?' then
      some (urlReplace (pre ++ run), r.dropWhile notWS)
    else none
  if "https://".data.isPrefixOf l then go 8
  else if "http://".data.isPrefixOf l then go 7
  else none

/-- Matcher for `String.prototype.replaceAll` with a literal non-empty
pattern (line 27): at each position, if the pattern is a prefix, emit the
replacement and skip it. -/
def tryLit (pat repl : List Char) (l : List Char) :
    Option (List Char × List Char) :=
  if ¬ pat.isEmpty ∧ pat.isPrefixOf l then some (repl, l.drop pat.length)
  else none

/-- `redactError` (src/ai-client.ts lines 22-53) as a function on strings;
the optional `apiKey` parameter is `none` when the argument is omitted. -/
def redactError (error : String) (apiKey : Option String) : String :=
  let safe := error.data
  let safe :=
    match apiKey with
    | some k => if k ≠ "" ∧ k.length > 4 then
        scanAll (tryLit k.data "[REDACTED]".data) safe
      else safe
    | none => safe
  let safe := scanAll tryQP safe
  let safe := scanAll tryAuth safe
  let safe := scanAll (tryHdr "x-goog-api-key:".data
    "x-goog-api-key: [REDACTED]".data) safe
  let safe := scanAll (tryHdr "x-api-key:".data
    "x-api-key: [REDACTED]".data) safe
  let safe := scanAll tryUrl safe
  String.mk safe

/-!
Data model and settings helpers (src/types.ts).
-/

/-- Per-provider credentials (`ProviderConfig`, src/types.ts lines 6-9). -/
structure ProviderConfig where
  apiKey : String
  model : String
deriving DecidableEq

/-- `MusePersona` (src/types.ts lines 29-36). -/
structure MusePersona where
  id : String
  name : String
  icon : String
  tone : String
  firstPerson : String
  speechStyle : String
deriving DecidableEq

/-- `MusePersonaSettings` (src/types.ts lines 38-41); `custom` is optional
because legacy persisted data may lack it (migration line 104 guards for
that). -/
structure MusePersonaSettings where
  selected : String
  custom : Option MusePersona
deriving DecidableEq

/-- `DEFAULT_PERSONA_SETTINGS` (src/types.ts lines 43-53). -/
def DEFAULT_PERSONA_SETTINGS : MusePersonaSettings :=
  { selected := "default",
    custom := some { id := "custom", name := "Muse", icon := "moon",
                     tone := "", firstPerson := "", speechStyle := "" } }

/-- `AiSettings` (src/types.ts lines 11-23).  `provider` is a plain string:
the TypeScript union is erased at runtime and loaded data may hold any
value (`callAi` has an unknown-provider branch for exactly that reason).
The deprecated flat fields and the legacy `ollamaModel` field (reached via
a cast in `migrateSettings`) are optional; the `providers` record is an
association list in insertion order (JavaScript objects preserve it). -/
structure AiSettings where
  enabled : Bool
  provider : String
  apiKey : Option String
  model : Option String
  providers : List (String × ProviderConfig)
  ollamaUrl : String
  ollamaModel : Option String
  persona : Option MusePersonaSettings
deriving DecidableEq

/-- Record lookup `s.providers[p]` (first binding; keys are unique). -/
def provLookup (ps : List (String × ProviderConfig)) (p : String) :
    Option ProviderConfig :=
  (ps.find? (fun e => e.1 = p)).map (·.2)

/-- Record update `s.providers[p] = cfg`: replace the existing binding in
place, or append a new one (JavaScript adds new keys at the end). -/
def provSet (ps : List (String × ProviderConfig)) (p : String)
    (cfg : ProviderConfig) : List (String × ProviderConfig) :=
  match ps with
  | [] => [(p, cfg)]
  | e :: rest =>
    if e.1 = p then (p, cfg) :: rest else e :: provSet rest p cfg

/-- Truthiness of an optional string field (absent or empty is falsy). -/
def optTruthy : Option String → Bool
  | none => false
  | some s => s ≠ ""

/-- `Modelled from the spec: the internationalized string table
(src/i18n.ts) is not under src/; only the Ollama provider's display name
is drawn from it, an opaque label that no claim observes.` -/
def ollamaLocalName : String := "Ollama (Local)"

/-- `ProviderInfo` (src/types.ts lines 128-133). -/
structure ProviderInfo where
  id : String
  name : String
  defaultModel : String
  needsApiKey : Bool
deriving DecidableEq

/-- `PROVIDERS` (src/types.ts lines 135-160). -/
def PROVIDERS : List ProviderInfo :=
  [{ id := "gemini", name := "Google Gemini",
     defaultModel := "gemini-2.5-flash", needsApiKey := true },
   { id := "openai", name := "OpenAI",
     defaultModel := "gpt-4o-mini", needsApiKey := true },
   { id := "anthropic", name := "Anthropic",
     defaultModel := "claude-sonnet-4-20250514", needsApiKey := true },
   { id := "ollama", name := ollamaLocalName,
     defaultModel := "gemma3:12b", needsApiKey := false }]

/-- `getApiKey` (src/types.ts lines 66-68):
`s.providers[s.provider]?.apiKey || ""`. -/
def getApiKey (s : AiSettings) : String :=
  match provLookup s.providers s.provider with
  | some cfg => cfg.apiKey
  | none => ""

/-- `getModel` (src/types.ts lines 73-76):
`s.providers[s.provider]?.model || provider?.defaultModel || ""`. -/
def getModel (s : AiSettings) : String :=
  let stored :=
    match provLookup s.providers s.provider with
    | some cfg => cfg.model
    | none => ""
  if stored ≠ "" then stored
  else
    match PROVIDERS.find? (fun p => p.id = s.provider) with
    | some p => p.defaultModel
    | none => ""

/-- `migrateSettings` (src/types.ts lines 82-111).  The in-place mutation
becomes a chain of functional updates in statement order.  The guard
`if (!s.providers)` of line 83 is vacuous here because the field is
total in the model.  Note that `delete old.ollamaModel` (line 98) sits
inside the truthy-string guard, while the deletions of `apiKey` and
`model` (lines 108-109) are unconditional. -/
def migrateSettings (s : AiSettings) : AiSettings :=
  -- lines 85-88: migrate the flat apiKey into the active provider's slot
  let providers :=
    if optTruthy s.apiKey ∧
        ¬ optTruthy ((provLookup s.providers s.provider).map (·.apiKey)) then
      let cfg := (provLookup s.providers s.provider).getD ⟨"", ""⟩
      provSet s.providers s.provider { cfg with apiKey := s.apiKey.getD "" }
    else s.providers
  -- lines 89-92: migrate the flat model likewise
  let providers :=
    if optTruthy s.model ∧
        ¬ optTruthy ((provLookup providers s.provider).map (·.model)) then
      let cfg := (provLookup providers s.provider).getD ⟨"", ""⟩
      provSet providers s.provider { cfg with model := s.model.getD "" }
    else providers
  -- lines 94-99: migrate ollamaModel (and delete it) only when it is a
  -- truthy string
  let (providers, ollamaModel) :=
    match s.ollamaModel with
    | some m =>
      if m ≠ "" then
        let cfg := (provLookup providers "ollama").getD ⟨"", ""⟩
        let cfg := if cfg.model = "" then { cfg with model := m } else cfg
        (provSet providers "ollama" cfg, none)
      else (providers, s.ollamaModel)
    | none => (providers, s.ollamaModel)
  -- lines 101-106: ensure persona settings and the custom sub-object exist
  let persona :=
    match s.persona with
    | none => DEFAULT_PERSONA_SETTINGS
    | some ps =>
      match ps.custom with
      | none => { ps with custom := DEFAULT_PERSONA_SETTINGS.custom }
      | some _ => ps
  -- lines 108-109: unconditionally delete the deprecated flat fields
  { s with providers := providers, ollamaModel := ollamaModel,
           persona := some persona, apiKey := none, model := none }

/-- `JapaneseRating` (src/types.ts lines 166-169). -/
structure JapaneseRating where
  rating : String
  recommended : Bool
deriving DecidableEq

/-- `JAPANESE_RATINGS` (src/types.ts lines 175-188), in literal insertion
order (`Object.keys` preserves it). -/
def JAPANESE_RATINGS : List (String × JapaneseRating) :=
  [("qwen3", ⟨"◎", true⟩), ("qwen2.5", ⟨"◎", true⟩), ("qwen2", ⟨"◎", true⟩),
   ("gemma3", ⟨"○", false⟩), ("gemma2", ⟨"○", false⟩),
   ("command-r", ⟨"○", false⟩),
   ("llama3", ⟨"△", false⟩), ("llama3.1", ⟨"△", false⟩),
   ("llama3.2", ⟨"△", false⟩),
   ("phi-3", ⟨"△", false⟩), ("phi-4", ⟨"△", false⟩),
   ("mistral", ⟨"△", false⟩)]

/-- Stable insertion of a string into a list sorted by descending length
(equal lengths keep their existing order), modelling
`Array.prototype.sort` with comparator `b.length - a.length` (line 192);
the modern engines' sort is stable. -/
def insertByLenDesc (x : String) : List String → List String
  | [] => [x]
  | y :: ys =>
    if x.length ≤ y.length then y :: insertByLenDesc x ys else x :: y :: ys

/-- The keys of `JAPANESE_RATINGS` sorted by descending length
(src/types.ts line 192). -/
def sortedFamilies : List String :=
  (JAPANESE_RATINGS.map (·.1)).foldl (fun acc x => insertByLenDesc x acc) []

/-- `modelName.startsWith(family)`. -/
def jsStartsWith (s pre : String) : Bool := pre.data.isPrefixOf s.data

/-- The table entry `JAPANESE_RATINGS[family]` (always present for keys of
the table; defaulting mirrors the unknown fallback). -/
def ratingFor (f : String) : JapaneseRating :=
  ((JAPANESE_RATINGS.find? (fun e => e.1 = f)).map (·.2)).getD ⟨"?", false⟩

/-- The family found by the loop of `getJapaneseRating`
(src/types.ts lines 193-195): the first family, in descending-length
order, that is a prefix of the model name. -/
def japaneseRatingMatch (modelName : String) : Option String :=
  sortedFamilies.find? (fun f => jsStartsWith modelName f)

/-- `getJapaneseRating` (src/types.ts lines 190-197). -/
def getJapaneseRating (modelName : String) : JapaneseRating :=
  match japaneseRatingMatch modelName with
  | some f => ratingFor f
  | none => ⟨"?", false⟩

/-!
Provider adapters and dispatch (src/ai-client.ts).
-/

/-- `AiRequest` (src/ai-client.ts lines 3-7). -/
structure AiRequest where
  system : String
  message : String
  maxTokens : Int

/-- `AiResponse` (src/ai-client.ts lines 9-13).  `text` is the JSON value
extracted from the provider response (typed `string` in TypeScript but, at
runtime, whatever truthy value the response held). -/
structure AiResponse where
  ok : Bool
  text : Option Json := none
  error : Option String := none

/-- The HTTP response seen by an adapter after `fetch` resolves: the
numeric status and the parsed JSON body (`none` models a body on which
`res.json()` would throw). -/
structure HttpResponse where
  status : Nat
  body : Option Json

/-- `Response.ok`: status in the inclusive range 200-299. -/
def statusOk (r : HttpResponse) : Bool :=
  if 200 ≤ r.status ∧ r.status < 300 then true else false

/-- The failure result every adapter returns on a non-2xx response
(e.g. src/ai-client.ts lines 126-128), before any body parsing. -/
def statusFailure (status : Nat) : AiResponse :=
  { ok := false, error := some ("Request failed, status " ++ toString status) }

/-- `res.json()`: yields the parsed body or throws. -/
def resJson (r : HttpResponse) : Except String Json :=
  match r.body with
  | some j => Except.ok j
  | none => Except.error "Unexpected end of JSON input"

/-- The `safetyRatings` diagnostics block of `callGemini`
(src/ai-client.ts lines 144-151): `console.warn` output is invisible to
the embedding, but `safetyRatings.filter` throws when a truthy
non-array value is present, and the filter callback's property read
throws on a `null` element. -/
def geminiWarnCheck (sr : Option Json) : Except String Unit :=
  match sr with
  | some j =>
    if jsTruthy j then
      match j with
      | .arr xs =>
        if xs.any Json.isNullV then
          Except.error "Cannot read properties of null (reading 'probability')"
        else Except.ok ()
      | _ => Except.error "safetyRatings.filter is not a function"
    else Except.ok ()
  | none => Except.ok ()

/-- The extraction path of `callGemini` (line 153):
`data?.candidates?.[0]?.content?.parts?.[0]?.text` — the `candidates`
step factored so the same `candidate` serves lines 133-136. -/
def geminiCandidate (data : Json) : Option Json :=
  jsIndexO (jsGetO (some data) "candidates") 0

/-- `candidate?.content?.parts?.[0]?.text` (src/ai-client.ts line 153). -/
def geminiText (data : Json) : Option Json :=
  jsGetO (jsIndexO (jsGetO (jsGetO (geminiCandidate data) "content") "parts") 0)
    "text"

/-- The post-fetch body of `callGemini` (src/ai-client.ts lines 126-171),
as a function of the HTTP response; a thrown exception is `Except.error`
(caught and redacted by `callAi`). -/
def callGeminiResp (r : HttpResponse) : Except String AiResponse :=
  if statusOk r = false then Except.ok (statusFailure r.status)
  else
    match resJson r with
    | Except.error e => Except.error e
    | Except.ok data =>
      let candidate := geminiCandidate data
      let finishReason := jsGetO candidate "finishReason"
      let blockReason := jsGetO (jsGetO (some data) "promptFeedback")
        "blockReason"
      let safetyRatings :=
        if jsTruthyO (jsGetO candidate "safetyRatings") then
          jsGetO candidate "safetyRatings"
        else jsGetO (jsGetO (some data) "promptFeedback") "safetyRatings"
      match geminiWarnCheck safetyRatings with
      | Except.error e => Except.error e
      | Except.ok _ =>
        let text := geminiText data
        if jsTruthyO text = false then
          let detail := "Empty response from Gemini"
          let detail :=
            if jsTruthyO blockReason then
              detail ++ " (blocked: " ++ jsToStringO blockReason ++ ")"
            else if jsIsStr finishReason "SAFETY" then
              detail ++ " (safety filter triggered)"
            else if jsIsStr finishReason "MAX_TOKENS" then
              detail ++ " (output truncated: max tokens reached)"
            else if jsIsStr finishReason "RECITATION" then
              detail ++ " (blocked: recitation)"
            else if jsTruthyO finishReason then
              detail ++ " (finishReason: " ++ jsToStringO finishReason ++ ")"
            else detail
          Except.ok { ok := false, error := some detail }
        else Except.ok { ok := true, text := text }

/-- `data?.choices?.[0]?.message?.content` (src/ai-client.ts line 198). -/
def openAiText (data : Json) : Option Json :=
  jsGetO (jsGetO (jsIndexO (jsGetO (some data) "choices") 0) "message")
    "content"

/-- The post-fetch body of `callOpenAi` (src/ai-client.ts lines 193-199). -/
def callOpenAiResp (r : HttpResponse) : Except String AiResponse :=
  if statusOk r = false then Except.ok (statusFailure r.status)
  else
    match resJson r with
    | Except.error e => Except.error e
    | Except.ok data =>
      let text := openAiText data
      if jsTruthyO text then Except.ok { ok := true, text := text }
      else Except.ok { ok := false, error := some "Empty response from OpenAI" }

/-- `data?.content?.[0]?.text` (src/ai-client.ts line 226). -/
def anthropicText (data : Json) : Option Json :=
  jsGetO (jsIndexO (jsGetO (some data) "content") 0) "text"

/-- The post-fetch body of `callAnthropic`
(src/ai-client.ts lines 221-227). -/
def callAnthropicResp (r : HttpResponse) : Except String AiResponse :=
  if statusOk r = false then Except.ok (statusFailure r.status)
  else
    match resJson r with
    | Except.error e => Except.error e
    | Except.ok data =>
      let text := anthropicText data
      if jsTruthyO text then Except.ok { ok := true, text := text }
      else
        Except.ok { ok := false, error := some "Empty response from Anthropic" }

/-- `data?.message?.content` (src/ai-client.ts line 306). -/
def ollamaText (data : Json) : Option Json :=
  jsGetO (jsGetO (some data) "message") "content"

/-- The post-fetch body of `callOllama` (src/ai-client.ts lines 301-307). -/
def callOllamaResp (r : HttpResponse) : Except String AiResponse :=
  if statusOk r = false then Except.ok (statusFailure r.status)
  else
    match resJson r with
    | Except.error e => Except.error e
    | Except.ok data =>
      let text := ollamaText data
      if jsTruthyO text then Except.ok { ok := true, text := text }
      else Except.ok { ok := false, error := some "Empty response from Ollama" }

/-- One outbound `fetchWithTimeout` call as the adapters assemble it. -/
structure FetchCall where
  url : String
  method : String
  headers : List (String × String)
  body : Option Json
  timeoutMs : Nat

/-- The network's answer to a fetch: a resolved response, or a thrown
error (network failure, or the timeout abort surfaced as
`"Request timed out"` by `fetchWithTimeout`, lines 58-80). -/
inductive FetchOutcome where
  | resp (r : HttpResponse)
  | thrown (msg : String)

/-- The network oracle: what each issued fetch returns. -/
def Net := FetchCall → FetchOutcome

/-- The request body built by `callGemini` (src/ai-client.ts
lines 116-123). -/
def geminiBody (req : AiRequest) : Json :=
  .obj [("systemInstruction",
          .obj [("parts", .arr [.obj [("text", .str req.system)]])]),
        ("contents", .arr [.obj [("parts", .arr [.obj [("text", .str req.message)]])]]),
        ("generationConfig",
          .obj [("maxOutputTokens", .num req.maxTokens),
                ("thinkingConfig", .obj [("thinkingBudget", .num 0)])])]

/-- `callGemini` (src/ai-client.ts lines 108-172): build the fetch, hand
it to the network, process the response; the returned trace records the
fetches issued. -/
def callGemini (net : Net) (apiKey model : String) (req : AiRequest) :
    Except String AiResponse × List FetchCall :=
  let call : FetchCall :=
    { url := "https://generativelanguage.googleapis.com/v1beta/models/" ++
        model ++ ":generateContent",
      method := "POST",
      headers := [("Content-Type", "application/json"),
                  ("x-goog-api-key", apiKey)],
      body := some (geminiBody req), timeoutMs := 30000 }
  match net call with
  | .resp r => (callGeminiResp r, [call])
  | .thrown m => (Except.error m, [call])

/-- The request body built by `callOpenAi` (lines 183-190). -/
def openAiBody (model : String) (req : AiRequest) : Json :=
  .obj [("model", .str model),
        ("messages", .arr [.obj [("role", .str "system"), ("content", .str req.system)],
                           .obj [("role", .str "user"), ("content", .str req.message)]]),
        ("max_tokens", .num req.maxTokens)]

/-- `callOpenAi` (src/ai-client.ts lines 176-200). -/
def callOpenAi (net : Net) (apiKey model : String) (req : AiRequest) :
    Except String AiResponse × List FetchCall :=
  let call : FetchCall :=
    { url := "https://api.openai.com/v1/chat/completions",
      method := "POST",
      headers := [("Content-Type", "application/json"),
                  ("Authorization", "Bearer " ++ apiKey)],
      body := some (openAiBody model req), timeoutMs := 30000 }
  match net call with
  | .resp r => (callOpenAiResp r, [call])
  | .thrown m => (Except.error m, [call])

/-- The request body built by `callAnthropic` (lines 213-218). -/
def anthropicBody (model : String) (req : AiRequest) : Json :=
  .obj [("model", .str model),
        ("max_tokens", .num req.maxTokens),
        ("system", .str req.system),
        ("messages", .arr [.obj [("role", .str "user"), ("content", .str req.message)]])]

/-- `callAnthropic` (src/ai-client.ts lines 204-228). -/
def callAnthropic (net : Net) (apiKey model : String) (req : AiRequest) :
    Except String AiResponse × List FetchCall :=
  let call : FetchCall :=
    { url := "https://api.anthropic.com/v1/messages",
      method := "POST",
      headers := [("Content-Type", "application/json"),
                  ("x-api-key", apiKey),
                  ("anthropic-version", "2023-06-01"),
                  ("anthropic-dangerous-direct-browser-access", "true")],
      body := some (anthropicBody model req), timeoutMs := 30000 }
  match net call with
  | .resp r => (callAnthropicResp r, [call])
  | .thrown m => (Except.error m, [call])

/-- The request body built by `callOllama` (lines 290-298). -/
def ollamaBody (model : String) (req : AiRequest) : Json :=
  .obj [("model", .str model),
        ("messages", .arr [.obj [("role", .str "system"), ("content", .str req.system)],
                           .obj [("role", .str "user"), ("content", .str req.message)]]),
        ("stream", .bool false),
        ("options", .obj [("num_predict", .num req.maxTokens)])]

/-- `callOllama` (src/ai-client.ts lines 285-308). -/
def callOllama (net : Net) (baseUrl model : String) (req : AiRequest) :
    Except String AiResponse × List FetchCall :=
  let call : FetchCall :=
    { url := baseUrl ++ "/api/chat",
      method := "POST",
      headers := [("Content-Type", "application/json")],
      body := some (ollamaBody model req), timeoutMs := 30000 }
  match net call with
  | .resp r => (callOllamaResp r, [call])
  | .thrown m => (Except.error m, [call])

/-- `callAi` (src/ai-client.ts lines 82-104): resolve key and model,
dispatch on the provider id, catch any thrown error and redact it.  The
second component is the trace of fetches issued. -/
def callAi (s : AiSettings) (req : AiRequest) (net : Net) :
    AiResponse × List FetchCall :=
  let apiKey := getApiKey s
  let model := getModel s
  let dispatched : Except String AiResponse × List FetchCall :=
    if s.provider = "gemini" then callGemini net apiKey model req
    else if s.provider = "openai" then callOpenAi net apiKey model req
    else if s.provider = "anthropic" then callAnthropic net apiKey model req
    else if s.provider = "ollama" then callOllama net s.ollamaUrl model req
    else
      (Except.ok { ok := false,
                   error := some ("Unknown provider: " ++ s.provider) }, [])
  match dispatched with
  | (Except.ok a, calls) => (a, calls)
  | (Except.error m, calls) =>
    ({ ok := false, error := some (redactError m (some apiKey)) }, calls)

/-- `isConfigured` (src/main.ts lines 348-354, concatenated into
src/ai-client.ts): enabled, provider recognized, and a key present
whenever the provider needs one. -/
def isConfigured (s : AiSettings) : Bool :=
  if s.enabled = false then false
  else
    match PROVIDERS.find? (fun p => p.id = s.provider) with
    | none => false
    | some p => if p.needsApiKey ∧ getApiKey s = "" then false else true

/-!
Auxiliary lemmas.
-/

theorem length_dropWhile_le' (p : Char → Bool) (l : List Char) :
    (l.dropWhile p).length ≤ l.length := by
  induction l with
  | nil => simp [List.dropWhile]
  | cons c cs ih =>
    rw [List.dropWhile]
    split
    · simp
      omega
    · simp

theorem dropWhile_eq_nil_of_all {p : Char → Bool} {l : List Char}
    (h : ∀ c ∈ l, p c = true) : l.dropWhile p = [] := by
  induction l with
  | nil => rfl
  | cons c cs ih =>
    rw [List.dropWhile, h c (by simp)]
    exact ih (fun x hx => h x (by simp [hx]))

theorem string_append_ne_empty_left {s : String} (h : s ≠ "") (t : String) :
    s ++ t ≠ "" := by
  intro he
  have hl := congrArg String.length he
  rw [String.length_append] at hl
  apply h
  cases s with
  | mk data =>
    cases data with
    | nil => rfl
    | cons c cs =>
      exfalso
      have hc : (String.mk (c :: cs)).length = cs.length + 1 := rfl
      have hz : ("" : String).length = 0 := rfl
      omega

theorem matchCI_length_le :
    ∀ (p l m r : List Char), matchCI p l = some (m, r) → r.length ≤ l.length := by
  intro p
  induction p with
  | nil =>
    intro l m r h
    injection h with h2
    cases h2
    exact Nat.le_refl _
  | cons x xs ih =>
    intro l m r h
    match l with
    | [] => exact Option.noConfusion h
    | c :: cs =>
      rw [matchCI] at h
      split at h
      · match hm : matchCI xs cs with
        | some (m2, r2) =>
          rw [hm] at h
          simp only [Option.map, Option.some.injEq, Prod.mk.injEq] at h
          have := ih cs m2 r2 hm
          rw [← h.2]
          simp only [List.length_cons]
          omega
        | none => rw [hm] at h; simp [Option.map] at h
      · simp at h

theorem tryNames_length_le :
    ∀ (ns : List (List Char)) (l m r : List Char),
      tryNames ns l = some (m, r) → r.length ≤ l.length := by
  intro ns
  induction ns with
  | nil => intro l m r h; simp [tryNames] at h
  | cons n rest ih =>
    intro l m r h
    rw [tryNames] at h
    match hm : matchCI n l with
    | some pr =>
      rw [hm] at h
      simp only [Option.some.injEq] at h
      rw [h] at hm
      exact matchCI_length_le n l m r hm
    | none =>
      rw [hm] at h
      exact ih l m r h

theorem tryQP_shrinks : Shrinks tryQP := by
  intro l m r h
  match l with
  | [] => simp [tryQP] at h
  | c :: cs =>
    rw [tryQP] at h
    split at h
    · split at h
      · rename_i name rest1 hn
        split at h
        · rename_i v2
          simp only [Option.some.injEq, Prod.mk.injEq] at h
          have h1 : v2.length + 1 ≤ cs.length := by
            have := tryNames_length_le qpNames cs name ('=' :: v2) hn
            simpa using this
          have h2 := length_dropWhile_le' qpValChar v2
          rw [← h.2]
          simp only [List.length_cons]
          omega
        · simp at h
      · simp at h
    · simp at h

/-!
The claims.
-/

/-- C1: the spec requires `redact(redact(x)) === redact(x)` for every
input, but the code violates it: on `"&key=a&token=b"` (no known-secret
argument) one application yields `"?key=[REDACTED]?token=[REDACTED]"`,
and because the replacement rewrote the `&` separator to `?`, the greedy
value class `[^&\s]*` of a second application swallows everything after
`?key=` and collapses the string to `"?key=[REDACTED]"`.  The code
contradicts the specified (and explicitly demanded) idempotence. -/
theorem redactError_not_idempotent :
    redactError "&key=a&token=b" none = "?key=[REDACTED]?token=[REDACTED]" ∧
    redactError (redactError "&key=a&token=b" none) none = "?key=[REDACTED]" ∧
    redactError (redactError "&key=a&token=b" none) none ≠
      redactError "&key=a&token=b" none := by
  refine ⟨by decide, by decide, by decide⟩

/-- C6: on a non-2xx HTTP response with status `N`, every one of the four
provider adapters returns `{ok:false, error:"Request failed, status N"}`
without looking at the body (the result is the same for every body,
including an unparseable one); in particular the openai adapter maps
HTTP 401 to exactly that failure string. -/
theorem adapters_non2xx_status_failure (st : Nat) (b : Option Json)
    (h : statusOk ⟨st, b⟩ = false) :
    callGeminiResp ⟨st, b⟩ = Except.ok
      { ok := false, text := none,
        error := some ("Request failed, status " ++ toString st) } ∧
    callOpenAiResp ⟨st, b⟩ = Except.ok
      { ok := false, text := none,
        error := some ("Request failed, status " ++ toString st) } ∧
    callAnthropicResp ⟨st, b⟩ = Except.ok
      { ok := false, text := none,
        error := some ("Request failed, status " ++ toString st) } ∧
    callOllamaResp ⟨st, b⟩ = Except.ok
      { ok := false, text := none,
        error := some ("Request failed, status " ++ toString st) } ∧
    callOpenAiResp ⟨401, b⟩ = Except.ok
      { ok := false, text := none,
        error := some "Request failed, status 401" } := by
  have h401 : statusOk ⟨401, b⟩ = false := rfl
  refine ⟨?_, ?_, ?_, ?_, ?_⟩ <;>
    simp [callGeminiResp, callOpenAiResp, callAnthropicResp, callOllamaResp,
      statusFailure, h, h401]
  decide

/-- Closed instance discharging the hypothesis of
`adapters_non2xx_status_failure` at status 500 with an unparseable body. -/
theorem adapters_non2xx_status_failure_witness :
    callOpenAiResp ⟨500, none⟩ = Except.ok
      { ok := false, text := none,
        error := some ("Request failed, status " ++ toString 500) } :=
  (adapters_non2xx_status_failure 500 none rfl).2.1

/-- C2: for each of the four provider adapters, a 2xx response whose
extracted content field is missing or falsy yields `{ok:false}` carrying a
non-empty diagnostic string — never `{ok:true}` with empty text.  (For
gemini the quantification over the adapter's returned value also covers
the corner where the diagnostics block throws instead of returning.) -/
theorem adapters_empty_content_fail (r : HttpResponse) (j : Json)
    (hb : r.body = some j) (h2 : statusOk r = true) :
    (jsTruthyO (geminiText j) = false → ∀ a, callGeminiResp r = Except.ok a →
      a.ok = false ∧ a.error ≠ none ∧ a.error ≠ some "") ∧
    (jsTruthyO (openAiText j) = false → ∀ a, callOpenAiResp r = Except.ok a →
      a.ok = false ∧ a.error ≠ none ∧ a.error ≠ some "") ∧
    (jsTruthyO (anthropicText j) = false →
      ∀ a, callAnthropicResp r = Except.ok a →
      a.ok = false ∧ a.error ≠ none ∧ a.error ≠ some "") ∧
    (jsTruthyO (ollamaText j) = false → ∀ a, callOllamaResp r = Except.ok a →
      a.ok = false ∧ a.error ≠ none ∧ a.error ≠ some "") := by
  refine ⟨?_, ?_, ?_, ?_⟩
  · intro ht a ha
    simp [callGeminiResp, h2, resJson, hb, ht] at ha
    split at ha
    · exact absurd ha (by simp)
    · injection ha with h3
      refine ⟨by rw [← h3], by rw [← h3]; simp, ?_⟩
      rw [← h3]
      intro hc
      injection hc with hc2
      revert hc2
      split_ifs <;>
        (intro hc2;
         exact absurd hc2 (by (repeat apply string_append_ne_empty_left); decide))
  · intro ht a ha
    simp [callOpenAiResp, h2, resJson, hb, ht] at ha
    rw [← ha]
    exact ⟨rfl, by simp, by decide⟩
  · intro ht a ha
    simp [callAnthropicResp, h2, resJson, hb, ht] at ha
    rw [← ha]
    exact ⟨rfl, by simp, by decide⟩
  · intro ht a ha
    simp [callOllamaResp, h2, resJson, hb, ht] at ha
    rw [← ha]
    exact ⟨rfl, by simp, by decide⟩

/-- Closed instances discharging the hypotheses of
`adapters_empty_content_fail` at a 2xx response whose body is the empty
JSON object (every adapter's extraction then yields `undefined`). -/
theorem adapters_empty_content_fail_witness :
    (AiResponse.mk false none (some "Empty response from Gemini")).ok = false ∧
    (AiResponse.mk false none (some "Empty response from Gemini")).error ≠
      none ∧
    (AiResponse.mk false none (some "Empty response from Gemini")).error ≠
      some "" ∧
    (AiResponse.mk false none (some "Empty response from OpenAI")).ok = false ∧
    (AiResponse.mk false none (some "Empty response from Ollama")).error ≠
      some "" := by
  have hg := (adapters_empty_content_fail ⟨200, some (Json.obj [])⟩
    (Json.obj []) rfl rfl).1 rfl _ rfl
  have ho := (adapters_empty_content_fail ⟨200, some (Json.obj [])⟩
    (Json.obj []) rfl rfl).2.1 rfl _ rfl
  have hl := (adapters_empty_content_fail ⟨200, some (Json.obj [])⟩
    (Json.obj []) rfl rfl).2.2.2 rfl _ rfl
  exact ⟨hg.1, hg.2.1, hg.2.2, ho.1, hl.2.2⟩

/-- C5: whenever the provider id is not one of the four known ids,
`callAi` immediately returns the unknown-provider failure and its fetch
trace is empty — the network oracle is never consulted. -/
theorem callAi_unknown_provider_no_fetch (s : AiSettings) (req : AiRequest)
    (net : Net)
    (h : s.provider ∉
      (["gemini", "openai", "anthropic", "ollama"] : List String)) :
    callAi s req net =
      ({ ok := false, text := none,
         error := some ("Unknown provider: " ++ s.provider) }, []) := by
  simp only [List.mem_cons, List.not_mem_nil, or_false, not_or] at h
  obtain ⟨h1, h2, h3, h4⟩ := h
  simp [callAi, h1, h2, h3, h4]

/-- Closed instance discharging the hypothesis of
`callAi_unknown_provider_no_fetch` at provider id `"azure"`. -/
theorem callAi_unknown_provider_no_fetch_witness :
    callAi
      { enabled := true, provider := "azure", apiKey := none, model := none,
        providers := [], ollamaUrl := "http://localhost:11434",
        ollamaModel := none, persona := some DEFAULT_PERSONA_SETTINGS }
      { system := "s", message := "m", maxTokens := 100 }
      (fun _ => FetchOutcome.thrown "offline") =
      ({ ok := false, text := none,
         error := some ("Unknown provider: " ++ "azure") }, []) :=
  callAi_unknown_provider_no_fetch _ _ _ (by decide)

/-- C4: `isConfigured` returns true iff the settings are enabled, the
provider id is recognized (appears in `PROVIDERS`), and — whenever that
provider's `needsApiKey` flag is set — the resolved API key is a
non-empty string. -/
theorem isConfigured_iff (s : AiSettings) :
    isConfigured s = true ↔
      s.enabled = true ∧
      ∃ p ∈ PROVIDERS, p.id = s.provider ∧
        (p.needsApiKey = true → getApiKey s ≠ "") := by
  by_cases he : s.enabled = true
  · by_cases hg : s.provider = "gemini"
    · simp [isConfigured, he, hg, PROVIDERS]
    · by_cases ho : s.provider = "openai"
      · simp [isConfigured, he, ho, PROVIDERS]
      · by_cases ha : s.provider = "anthropic"
        · simp [isConfigured, he, ha, PROVIDERS]
        · by_cases hl : s.provider = "ollama"
          · simp [isConfigured, he, hl, PROVIDERS]
          · have hg2 : ¬("gemini" = s.provider) := fun hh => hg hh.symm
            have ho2 : ¬("openai" = s.provider) := fun hh => ho hh.symm
            have ha2 : ¬("anthropic" = s.provider) := fun hh => ha hh.symm
            have hl2 : ¬("ollama" = s.provider) := fun hh => hl hh.symm
            simp [isConfigured, he, PROVIDERS, hg2, ho2, ha2, hl2]
  · have he' : s.enabled = false := by
      revert he
      cases s.enabled <;> simp
    simp [isConfigured, he']

/-- C7: `getJapaneseRating` matches the longest family prefix first —
`"qwen2.5-7b"` resolves to the `"qwen2.5"` entry and not `"qwen2"`
(indeed any name starting with `"qwen2.5"` matches family `"qwen2.5"`, and
any name starting with `"llama3.2"` matches `"llama3.2"` though the
equally long `"llama3.1"` sorts before it) — and a name matching no
family yields rating `"?"`, not recommended. -/
theorem getJapaneseRating_longest_match :
    (japaneseRatingMatch "qwen2.5-7b" = some "qwen2.5" ∧
      getJapaneseRating "qwen2.5-7b" = ratingFor "qwen2.5" ∧
      japaneseRatingMatch "qwen2.5-7b" ≠ some "qwen2") ∧
    (∀ m : String, jsStartsWith m "qwen2.5" = true →
      japaneseRatingMatch m = some "qwen2.5") ∧
    (∀ m : String, jsStartsWith m "llama3.2" = true →
      japaneseRatingMatch m = some "llama3.2") ∧
    (∀ m : String,
      (∀ f ∈ JAPANESE_RATINGS.map (fun e => e.1), jsStartsWith m f = false) →
      getJapaneseRating m = ⟨"?", false⟩) := by
  have hs : sortedFamilies = ["command-r", "llama3.1", "llama3.2", "qwen2.5",
      "mistral", "gemma3", "gemma2", "llama3", "qwen3", "qwen2", "phi-3",
      "phi-4"] := by decide
  refine ⟨by refine ⟨by decide, by decide, by decide⟩, ?_, ?_, ?_⟩
  · intro m h
    simp only [jsStartsWith] at h
    rw [List.isPrefixOf_iff_prefix] at h
    obtain ⟨t, ht⟩ := h
    have e1 : jsStartsWith m "command-r" = false := by
      simp only [jsStartsWith]
      rw [← ht]
      simp [List.isPrefixOf]
    have e2 : jsStartsWith m "llama3.1" = false := by
      simp only [jsStartsWith]
      rw [← ht]
      simp [List.isPrefixOf]
    have e3 : jsStartsWith m "llama3.2" = false := by
      simp only [jsStartsWith]
      rw [← ht]
      simp [List.isPrefixOf]
    have e4 : jsStartsWith m "qwen2.5" = true := by
      simp only [jsStartsWith]
      rw [← ht]
      simp [List.isPrefixOf]
    rw [japaneseRatingMatch, hs]
    simp only [List.find?, e1, e2, e3, e4]
  · intro m h
    simp only [jsStartsWith] at h
    rw [List.isPrefixOf_iff_prefix] at h
    obtain ⟨t, ht⟩ := h
    have e1 : jsStartsWith m "command-r" = false := by
      simp only [jsStartsWith]
      rw [← ht]
      simp [List.isPrefixOf]
    have e2 : jsStartsWith m "llama3.1" = false := by
      simp only [jsStartsWith]
      rw [← ht]
      simp [List.isPrefixOf]
    have e3 : jsStartsWith m "llama3.2" = true := by
      simp only [jsStartsWith]
      rw [← ht]
      simp [List.isPrefixOf]
    rw [japaneseRatingMatch, hs]
    simp only [List.find?, e1, e2, e3]
  · intro m h
    rw [getJapaneseRating, japaneseRatingMatch, hs]
    simp only [List.find?, h "command-r" (by decide), h "llama3.1" (by decide),
      h "llama3.2" (by decide), h "qwen2.5" (by decide),
      h "mistral" (by decide), h "gemma3" (by decide), h "gemma2" (by decide),
      h "llama3" (by decide), h "qwen3" (by decide), h "qwen2" (by decide),
      h "phi-3" (by decide), h "phi-4" (by decide)]

/-- Closed instances discharging the hypotheses of
`getJapaneseRating_longest_match`: `"qwen2.5-14b"` resolves to the
`"qwen2.5"` family and the unmatched `"deepseek-r1"` gets the neutral
rating. -/
theorem getJapaneseRating_longest_match_witness :
    japaneseRatingMatch "qwen2.5-14b" = some "qwen2.5" ∧
    getJapaneseRating "deepseek-r1" = ⟨"?", false⟩ :=
  ⟨(getJapaneseRating_longest_match).2.1 "qwen2.5-14b" (by decide),
   (getJapaneseRating_longest_match).2.2.2 "deepseek-r1" (by decide)⟩

theorem provLookup_provSet_self (ps : List (String × ProviderConfig))
    (p : String) (cfg : ProviderConfig) :
    provLookup (provSet ps p cfg) p = some cfg := by
  induction ps with
  | nil =>
    rw [provSet, provLookup, List.find?_cons_of_pos _ (by simp)]
    rfl
  | cons e rest ih =>
    rw [provSet]
    split
    · rw [provLookup, List.find?_cons_of_pos _ (by simp)]
      rfl
    · rename_i hne
      rw [provLookup, List.find?_cons_of_neg _ (by simpa using hne)]
      exact ih

theorem provLookup_provSet_ne (ps : List (String × ProviderConfig))
    (p q : String) (cfg : ProviderConfig) (h : q ≠ p) :
    provLookup (provSet ps p cfg) q = provLookup ps q := by
  induction ps with
  | nil =>
    rw [provSet, provLookup, List.find?_cons_of_neg _ (by simp [Ne.symm h]),
      List.find?_nil]
    rfl
  | cons e rest ih =>
    rw [provSet]
    split
    · rename_i he
      rw [provLookup, List.find?_cons_of_neg _ (by simp [Ne.symm h]),
        provLookup, List.find?_cons_of_neg _ (by simp [he, Ne.symm h])]
    · by_cases heq : e.1 = q
      · rw [provLookup, List.find?_cons_of_pos _ (by simp [heq]),
          provLookup, List.find?_cons_of_pos _ (by simp [heq])]
      · rw [provLookup, List.find?_cons_of_neg _ (by simp [heq]),
          provLookup, List.find?_cons_of_neg _ (by simp [heq])]
        exact ih

theorem migrate_keeps_apiKey (s : AiSettings) (cfg : ProviderConfig)
    (hc : provLookup s.providers s.provider = some cfg)
    (hk : cfg.apiKey ≠ "") :
    (provLookup (migrateSettings s).providers s.provider).map
      (fun c => c.apiKey) = some cfg.apiKey := by
  by_cases hol : s.provider = "ollama" <;>
    by_cases hmo : optTruthy s.model = true <;>
    by_cases hm2 : cfg.model = "" <;>
    rcases hom : s.ollamaModel with _ | m
  all_goals try by_cases hm : m = ""
  all_goals
    simp_all [migrateSettings, optTruthy, provLookup_provSet_self,
      provLookup_provSet_ne, hc]
  all_goals split <;> rfl

theorem migrate_keeps_model (s : AiSettings) (cfg : ProviderConfig)
    (hc : provLookup s.providers s.provider = some cfg)
    (hm2 : cfg.model ≠ "") :
    (provLookup (migrateSettings s).providers s.provider).map
      (fun c => c.model) = some cfg.model := by
  by_cases hol : s.provider = "ollama" <;>
    by_cases hak : optTruthy s.apiKey = true <;>
    by_cases hk : cfg.apiKey = "" <;>
    rcases hom : s.ollamaModel with _ | m
  all_goals try by_cases hm : m = ""
  all_goals
    simp_all [migrateSettings, optTruthy, provLookup_provSet_self,
      provLookup_provSet_ne, hc]

/-- C8: migration never overwrites an existing per-provider value — a
non-empty stored `apiKey` (resp. `model`) of the active provider's slot is
unchanged by `migrateSettings`, whatever legacy flat fields are present. -/
theorem migrateSettings_no_overwrite (s : AiSettings) (cfg : ProviderConfig)
    (hc : provLookup s.providers s.provider = some cfg) :
    (cfg.apiKey ≠ "" →
      (provLookup (migrateSettings s).providers s.provider).map
        (fun c => c.apiKey) = some cfg.apiKey) ∧
    (cfg.model ≠ "" →
      (provLookup (migrateSettings s).providers s.provider).map
        (fun c => c.model) = some cfg.model) :=
  ⟨migrate_keeps_apiKey s cfg hc, migrate_keeps_model s cfg hc⟩

/-- Closed instance discharging the hypotheses of
`migrateSettings_no_overwrite`: with legacy flat fields present and a
fully populated slot, the stored values survive migration. -/
theorem migrateSettings_no_overwrite_witness :
    (provLookup (migrateSettings
      { enabled := true, provider := "gemini", apiKey := some "legacyKey",
        model := some "legacyModel",
        providers := [("gemini", ⟨"storedKey", "storedModel"⟩)],
        ollamaUrl := "", ollamaModel := some "om",
        persona := some DEFAULT_PERSONA_SETTINGS }).providers "gemini").map
      (fun c => c.apiKey) = some "storedKey" ∧
    (provLookup (migrateSettings
      { enabled := true, provider := "gemini", apiKey := some "legacyKey",
        model := some "legacyModel",
        providers := [("gemini", ⟨"storedKey", "storedModel"⟩)],
        ollamaUrl := "", ollamaModel := some "om",
        persona := some DEFAULT_PERSONA_SETTINGS }).providers "gemini").map
      (fun c => c.model) = some "storedModel" :=
  ⟨(migrateSettings_no_overwrite
      { enabled := true, provider := "gemini", apiKey := some "legacyKey",
        model := some "legacyModel",
        providers := [("gemini", ⟨"storedKey", "storedModel"⟩)],
        ollamaUrl := "", ollamaModel := some "om",
        persona := some DEFAULT_PERSONA_SETTINGS }
      ⟨"storedKey", "storedModel"⟩ rfl).1 (by decide),
   (migrateSettings_no_overwrite
      { enabled := true, provider := "gemini", apiKey := some "legacyKey",
        model := some "legacyModel",
        providers := [("gemini", ⟨"storedKey", "storedModel"⟩)],
        ollamaUrl := "", ollamaModel := some "om",
        persona := some DEFAULT_PERSONA_SETTINGS }
      ⟨"storedKey", "storedModel"⟩ rfl).2 (by decide)⟩

/-- C10: the deprecated flat `apiKey` and `model` fields are deleted
unconditionally at the end of every migration run; in particular a truthy
legacy value that was not copied (because the per-provider slot already
held a non-empty value) is silently discarded: the slot keeps its stored
value and the flat field is gone. -/
theorem migrateSettings_deletes_flat_fields (s : AiSettings) :
    (migrateSettings s).apiKey = none ∧ (migrateSettings s).model = none ∧
    (∀ cfg, provLookup s.providers s.provider = some cfg →
      optTruthy s.apiKey = true → cfg.apiKey ≠ "" →
      (provLookup (migrateSettings s).providers s.provider).map
        (fun c => c.apiKey) = some cfg.apiKey ∧
      (migrateSettings s).apiKey = none) :=
  ⟨rfl, rfl, fun cfg hc _ hk => ⟨migrate_keeps_apiKey s cfg hc hk, rfl⟩⟩

theorem migrate_ollamaModel_not_truthy (s : AiSettings) :
    optTruthy (migrateSettings s).ollamaModel = false := by
  rcases hom : s.ollamaModel with _ | m
  · simp [migrateSettings, hom, optTruthy]
  · by_cases hm : m = "" <;> simp [migrateSettings, hom, hm, optTruthy]

theorem migrate_persona_custom (s : AiSettings) :
    ∃ p, (migrateSettings s).persona = some p ∧ p.custom.isSome = true := by
  rcases hpe : s.persona with _ | p
  · exact ⟨DEFAULT_PERSONA_SETTINGS, by simp [migrateSettings, hpe], rfl⟩
  · rcases hpc : p.custom with _ | c
    · exact ⟨{ p with custom := DEFAULT_PERSONA_SETTINGS.custom },
        by simp [migrateSettings, hpe, hpc], rfl⟩
    · exact ⟨p, by simp [migrateSettings, hpe, hpc], by simp [hpc]⟩

theorem migrate_ollamaModel_deleted (s : AiSettings)
    (h : optTruthy s.ollamaModel = true) :
    (migrateSettings s).ollamaModel = none := by
  rcases hom : s.ollamaModel with _ | m
  · rw [hom] at h
    simp [optTruthy] at h
  · rw [hom] at h
    simp only [optTruthy, ne_eq, decide_not] at h
    have hm : ¬(m = "") := by simpa using h
    simp [migrateSettings, hom, hm]

theorem migrate_of_clean (s : AiSettings) (h1 : s.apiKey = none)
    (h2 : s.model = none) (h3 : optTruthy s.ollamaModel = false)
    (p : MusePersonaSettings) (hp : s.persona = some p)
    (hpc : p.custom.isSome = true) :
    migrateSettings s = s := by
  rcases s with ⟨en, prov, ak, mo, ps, ou, om, pe⟩
  simp only at h1 h2 h3 hp
  subst h1 h2 hp
  rcases hc : p.custom with _ | c
  · rw [hc] at hpc
    simp at hpc
  · rcases om with _ | m
    · simp [migrateSettings, optTruthy, hc]
    · have hm : m = "" := by simpa [optTruthy] using h3
      subst hm
      simp [migrateSettings, optTruthy, hc]

/-- C3, counterexample: after one run of `migrateSettings` the legacy
`ollamaModel` field is not necessarily gone — when it holds the empty
string, the `delete` sits inside the truthiness guard (src/types.ts
line 95-98) and the field survives.  This falsifies the claim's "after one
run the legacy flat fields (apiKey, model, ollamaModel) are gone". -/
theorem migrateSettings_ollamaModel_survives :
    (migrateSettings
      { enabled := false, provider := "gemini", apiKey := none, model := none,
        providers := [], ollamaUrl := "", ollamaModel := some "",
        persona := some DEFAULT_PERSONA_SETTINGS }).ollamaModel = some "" ∧
    (migrateSettings
      { enabled := false, provider := "gemini", apiKey := none, model := none,
        providers := [], ollamaUrl := "", ollamaModel := some "",
        persona := some DEFAULT_PERSONA_SETTINGS }).ollamaModel ≠ none := by
  refine ⟨by decide, by decide⟩

/-- C3 as amended: `migrateSettings` is idempotent — a second run changes
nothing — and after one run the legacy flat `apiKey` and `model` fields
are gone unconditionally, while `ollamaModel` is gone whenever it held a
truthy (non-empty) value. -/
theorem migrateSettings_idempotent (s : AiSettings) :
    migrateSettings (migrateSettings s) = migrateSettings s ∧
    (migrateSettings s).apiKey = none ∧ (migrateSettings s).model = none ∧
    (optTruthy s.ollamaModel = true →
      (migrateSettings s).ollamaModel = none) := by
  obtain ⟨p, hp, hpc⟩ := migrate_persona_custom s
  exact ⟨migrate_of_clean _ rfl rfl (migrate_ollamaModel_not_truthy s) p hp
      hpc,
    rfl, rfl, migrate_ollamaModel_deleted s⟩

theorem qp_core (v : List Char) (hv : ∀ c ∈ v, c ≠ '&' ∧ jsWS c = false) :
    scanAll tryQP ('a' :: '&' :: 'k' :: 'e' :: 'y' :: '=' :: v) =
      "a?key=[REDACTED]".data := by
  have h1 : tryQP ('a' :: '&' :: 'k' :: 'e' :: 'y' :: '=' :: v) = none := rfl
  rw [scanAll_cons_none h1]
  have h2 : tryQP ('&' :: 'k' :: 'e' :: 'y' :: '=' :: v) =
      some ("?key=[REDACTED]".data, v.dropWhile qpValChar) := rfl
  rw [scanAll_cons_some tryQP_shrinks h2]
  have h3 : v.dropWhile qpValChar = [] := by
    apply dropWhile_eq_nil_of_all
    intro c hcv
    obtain ⟨hamp, hws⟩ := hv c hcv
    simp [qpValChar, hamp, hws]
  rw [h3, scanAll_nil, List.append_nil]

/-- C9: the replacement template of the query-parameter redaction step
always emits `?` as the separator; a secret-bearing parameter introduced
by `&` comes out as `?name=[REDACTED]`: for every value `v` the regex's
value class can swallow (no `&`, no whitespace), the step rewrites
`"a&key=" ++ v` to exactly `"a?key=[REDACTED]"`, and the full
`redactError` gives the same (the later header- and URL-passes leave it
unchanged): the parameter name is kept, the `&` is rewritten to `?`. -/
theorem redactError_rewrites_separator (v : String)
    (hv : ∀ c ∈ v.data, c ≠ '&' ∧ jsWS c = false) :
    String.mk (scanAll tryQP ("a&key=" ++ v).data) = "a?key=[REDACTED]" ∧
    redactError ("a&key=" ++ v) none = "a?key=[REDACTED]" := by
  have hlit : "a&key=".data = ['a', '&', 'k', 'e', 'y', '='] := rfl
  have hdata : ("a&key=" ++ v).data =
      'a' :: '&' :: 'k' :: 'e' :: 'y' :: '=' :: v.data := by
    rw [String.data_append, hlit]
    rfl
  constructor
  · rw [hdata, qp_core v.data hv]
  · have h0 : redactError ("a&key=" ++ v) none =
        String.mk (scanAll tryUrl (scanAll (tryHdr "x-api-key:".data
          "x-api-key: [REDACTED]".data) (scanAll (tryHdr
          "x-goog-api-key:".data "x-goog-api-key: [REDACTED]".data)
          (scanAll tryAuth
            (scanAll tryQP ("a&key=" ++ v).data))))) := rfl
    rw [h0, hdata, qp_core v.data hv]
    decide

/-- Closed instance discharging the hypothesis of
`redactError_rewrites_separator` at the value `"tok123"`. -/
theorem redactError_rewrites_separator_witness :
    redactError ("a&key=" ++ "tok123") none = "a?key=[REDACTED]" :=
  (redactError_rewrites_separator "tok123" (by decide)).2

end Mwab
